import Mathlib

/-!
Verification of the astronomical-body demonstration program (`src/models.py`).

The program defines a validated planet record (`AstronomicalBody`, a pydantic
model), a plain star record (`Star`, a dataclass), JSON round-trip
serialization, and a `main` entry point that constructs one record of each
kind, serializes and deserializes the planet, prints the results and feeds
four text strings to a GUI window.

The embedding below models:
- the planet-name enumeration and the two field validators;
- validated construction (`AstronomicalBody.construct`), with pydantic's
  semantics: fields are validated in definition order (`name`, then `radius`,
  then `atmosphere_composition`); the custom name validator raises
  `InvalidPlanetNameException`, which is not a `ValueError` and therefore
  propagates immediately, aborting validation, while ordinary constraint
  violations (such as `radius ≤ 0` against `gt=0`) are collected into an
  aggregated `ValidationError`;
- serialization at two levels: a JSON document level (`to_json_val`) and the
  textual level (`to_json`), using the compact separators the library's JSON
  serializer emits;
- deserialization (`from_json_val` on parsed documents, `from_json` on text
  via a small JSON reader), which extracts the three declared fields from the
  payload, ignores unknown keys (the library's default `extra` policy) and
  re-runs the same validation as construction;
- the `Star` dataclass and its `__str__` rendering;
- the control flow of `main`, including the fact that the GUI block reads the
  local variable `body`, which is bound only when construction succeeded.

Numbers are modelled as rationals: every IEEE double the program handles is a
rational, and the comparisons (`> 0`, `≤ 0`) and the decimal rendering of the
concrete values in the theorems coincide with the Python ones.
-/

namespace Models

/-- The `PlanetEnum` string enum: the closed set of accepted planet names. -/
inductive PlanetEnum where
  | MERCURY
  | VENUS
  | EARTH
  | MARS
deriving DecidableEq, Repr

/-- The string value of each `PlanetEnum` member. -/
def PlanetEnum.value : PlanetEnum → String
  | .MERCURY => "Mercury"
  | .VENUS => "Venus"
  | .EARTH => "Earth"
  | .MARS => "Mars"

/-- The keys of `PlanetEnum._value2member_map_`: the accepted name strings,
in declaration order. -/
def planetValues : List String := ["Mercury", "Venus", "Earth", "Mars"]

theorem planetValues_eq_enum_values :
    planetValues = [PlanetEnum.MERCURY.value, PlanetEnum.VENUS.value,
      PlanetEnum.EARTH.value, PlanetEnum.MARS.value] := rfl

/-- The two error outcomes construction (and deserialization) can produce:
`invalidName` embeds `InvalidPlanetNameException` (which stores the rejected
name in its `planet_name` attribute), and `validationError` embeds pydantic's
aggregated `ValidationError`, as the list of per-field error messages. -/
inductive ConstructError where
  | invalidName (planet_name : String)
  | validationError (errors : List String)
deriving DecidableEq, Repr

/-- The validated planet record: the fields of the `AstronomicalBody`
pydantic model. -/
structure AstronomicalBody where
  name : String
  radius : ℚ
  atmosphere_composition : List String
deriving DecidableEq, Repr

/-- The `validate_name` validator: membership in the closed
`PlanetEnum` value set, raising `InvalidPlanetNameException v` otherwise. -/
def validate_name (v : String) : Except ConstructError String :=
  if v ∈ planetValues then .ok v else .error (.invalidName v)

/-- Validated construction, `AstronomicalBody(name=…, radius=…,
atmosphere_composition=…)`. Pydantic validates fields in declaration order.
The `name` validator's `InvalidPlanetNameException` is not a `ValueError`,
so it propagates at once, before the `radius` field is examined. A `radius`
failing the `gt=0` field constraint is recorded as an aggregated
`ValidationError`; the `validate_radius` validator repeats the same check but
runs only after the field constraint has passed, so it adds no further
outcome. The atmosphere list, already a list of strings, passes unchecked. -/
def AstronomicalBody.construct (name : String) (radius : ℚ)
    (atmosphere_composition : List String) :
    Except ConstructError AstronomicalBody := do
  let n ← validate_name name
  if radius ≤ 0 then
    .error (.validationError ["radius: Input should be greater than 0"])
  else
    .ok ⟨n, radius, atmosphere_composition⟩

/-- A JSON document, the shape `json.loads`/`json.dumps` work with: object
members keep their written order, and a repeated key is resolved by the
Python dict the parser builds, where the last occurrence wins. -/
inductive JsonVal where
  | str (s : String)
  | num (q : ℚ)
  | boolean (b : Bool)
  | null
  | arr (elements : List JsonVal)
  | obj (members : List (String × JsonVal))

/-- Serialization at the document level: the model's three declared fields, in
declaration order, keyed by the field names, and nothing else. -/
def to_json_val (b : AstronomicalBody) : JsonVal :=
  .obj [("name", .str b.name), ("radius", .num b.radius),
    ("atmosphere_composition", .arr (b.atmosphere_composition.map .str))]

/-- Field lookup in a parsed JSON object: `json.loads` builds a Python dict,
so a repeated key keeps its last occurrence (a later member shadows an
earlier one with the same key). -/
def getField : List (String × JsonVal) → String → Option JsonVal
  | [], _ => none
  | (k, v) :: rest, key =>
      match getField rest key with
      | some v' => some v'
      | none => if k == key then some v else none

/-- Reads a parsed JSON array as a `List[str]` value; any non-string element
makes the whole field ill-typed. -/
def asStringList : List JsonVal → Option (List String)
  | [] => some []
  | .str s :: rest => (asStringList rest).map (s :: ·)
  | _ => none

/-- Validation of the `radius` field of a payload: required, numeric, and
subject to the `gt=0` constraint; a violation is an ordinary collected
error. -/
def radiusField (members : List (String × JsonVal)) :
    Except (List String) ℚ :=
  match getField members "radius" with
  | some (.num q) =>
      if q ≤ 0 then .error ["radius: Input should be greater than 0"]
      else .ok q
  | some _ => .error ["radius: Input should be a valid number"]
  | none => .error ["radius: Field required"]

/-- Validation of the `atmosphere_composition` field of a payload: required
and a list of strings. -/
def atmosphereField (members : List (String × JsonVal)) :
    Except (List String) (List String) :=
  match getField members "atmosphere_composition" with
  | some (.arr xs) =>
      match asStringList xs with
      | some ss => .ok ss
      | none =>
          .error ["atmosphere_composition: Input should be a valid string"]
  | some _ => .error ["atmosphere_composition: Input should be a valid list"]
  | none => .error ["atmosphere_composition: Field required"]

/-- Deserialization of a parsed JSON document, `AstronomicalBody.from_json`
after the text has been read: the three declared fields are extracted (keys
not declared on the model are ignored, the library's default extra-field
policy) and the full construction validation is re-run, field by field in
declaration order. A `name` that is present and a string but outside the
accepted set raises `InvalidPlanetNameException` at once, exactly as in
direct construction; every other field violation is collected into one
aggregated `ValidationError`. No record is returned unless every field
validates. -/
def from_json_val : JsonVal → Except ConstructError AstronomicalBody
  | .obj members =>
      (match getField members "name" with
      | some (.str v) =>
          if v ∈ planetValues then
            match radiusField members, atmosphereField members with
            | .ok r, .ok a => .ok ⟨v, r, a⟩
            | .error e, .ok _ => .error (.validationError e)
            | .ok _, .error e => .error (.validationError e)
            | .error e₁, .error e₂ => .error (.validationError (e₁ ++ e₂))
          else .error (.invalidName v)
      | nameField =>
          let nameErrs := match nameField with
            | none => ["name: Field required"]
            | some _ => ["name: Input should be a valid string"]
          let rErrs := match radiusField members with
            | .ok _ => [] | .error e => e
          let aErrs := match atmosphereField members with
            | .ok _ => [] | .error e => e
          .error (.validationError (nameErrs ++ rErrs ++ aErrs)))
  | _ => .error (.validationError ["Input should be a valid dictionary"])

/-- The hexadecimal digit character for a value below 16, lower case. -/
def hexDigit (n : Nat) : Char :=
  if n < 10 then Char.ofNat (48 + n) else Char.ofNat (87 + n)

/-- The big-endian decimal digit characters of a natural number, most
significant first; the `fuel` argument, always supplied with at least the
digit count, makes the recursion structural. -/
def natCharsAux : Nat → Nat → List Char
  | 0, _ => []
  | fuel + 1, n =>
      if n = 0 then []
      else natCharsAux fuel (n / 10) ++ [Char.ofNat (48 + n % 10)]

/-- The decimal digit characters of a natural number, exactly as Python's
`str` prints it. -/
def natChars (n : Nat) : List Char :=
  if n = 0 then ['0'] else natCharsAux (n + 1) n

/-- The decimal text of a float value. Every IEEE-754 double is a dyadic
rational `m / 2^j` with `j ≤ 1074`, and `2^j` divides `10^j`, so every double
has an exact finite decimal expansion with at most 1074 fractional digits;
this function prints that exact expansion (an integral value with a trailing
`.0`, as Python prints it). The JSON reader maps this text back to exactly
the original value, just as Python's shortest round-tripping float repr is
read back exactly. A rational whose denominator divides no power of ten
represents no double and so no state of the program; for totality such a
value prints as `num/den`, which is not JSON number syntax and therefore can
never be silently misread as a different number. -/
def floatReprChars (q : ℚ) : List Char :=
  let sign : List Char := if q.num < 0 then ['-'] else []
  let n := q.num.natAbs
  let d := q.den
  match (List.range 1075).find? (fun k => 10 ^ k % d == 0) with
  | some k =>
      if k = 0 then sign ++ natChars n ++ ['.', '0']
      else
        let m := n * (10 ^ k / d)
        let fpChars := natChars (m % 10 ^ k)
        let pad := List.replicate (k - fpChars.length) '0'
        sign ++ natChars (m / 10 ^ k) ++ ['.'] ++ pad ++ fpChars
  | none => sign ++ natChars n ++ ['/'] ++ natChars d

/-- The decimal text of a float value, as a string. -/
def floatRepr (q : ℚ) : String := String.mk (floatReprChars q)

/-- JSON escaping of one character: quote, backslash and the control
characters are escaped, every other character passes through unchanged. -/
def escapeChar (c : Char) : List Char :=
  if c = '"' then ['\\', '"']
  else if c = '\\' then ['\\', '\\']
  else if c = '\n' then ['\\', 'n']
  else if c = '\t' then ['\\', 't']
  else if c = '\r' then ['\\', 'r']
  else if c = Char.ofNat 8 then ['\\', 'b']
  else if c = Char.ofNat 12 then ['\\', 'f']
  else if c.toNat < 32 then
    ['\\', 'u', '0', '0', hexDigit (c.toNat / 16), hexDigit (c.toNat % 16)]
  else [c]

/-- JSON escaping of a whole string, character by character. -/
def escapeList : List Char → List Char
  | [] => []
  | c :: cs => escapeChar c ++ escapeList cs

mutual

/-- `json` text of a document, as its character list, with the compact
separators (`","` and `":"`, no added whitespace) that the model's JSON
serializer emits. -/
def dumpsChars : JsonVal → List Char
  | .str s => '"' :: escapeList s.data ++ ['"']
  | .num q => floatReprChars q
  | .boolean b => if b then ['t', 'r', 'u', 'e'] else ['f', 'a', 'l', 's', 'e']
  | .null => ['n', 'u', 'l', 'l']
  | .arr xs => '[' :: dumpsElemsChars xs ++ [']']
  | .obj kvs => '\x7b' :: dumpsMembersChars kvs ++ ['\x7d']

/-- The comma-separated element list of a serialized JSON array. -/
def dumpsElemsChars : List JsonVal → List Char
  | [] => []
  | [x] => dumpsChars x
  | x :: y :: xs => dumpsChars x ++ ',' :: dumpsElemsChars (y :: xs)

/-- The comma-separated member list of a serialized JSON object. -/
def dumpsMembersChars : List (String × JsonVal) → List Char
  | [] => []
  | [(k, v)] => '"' :: escapeList k.data ++ '"' :: ':' :: dumpsChars v
  | (k, v) :: m :: kvs =>
      '"' :: escapeList k.data ++ '"' :: ':' :: dumpsChars v ++
        ',' :: dumpsMembersChars (m :: kvs)

end

/-- `json` text of a document, as a string. -/
def dumps (v : JsonVal) : String := String.mk (dumpsChars v)

/-- `AstronomicalBody.to_json`: serialize the model to JSON text. -/
def AstronomicalBody.to_json (b : AstronomicalBody) : String :=
  dumps (to_json_val b)

/-- JSON insignificant whitespace. -/
def isWs (c : Char) : Bool :=
  c == ' ' || c == '\t' || c == '\n' || c == '\r'

/-- Drops leading insignificant whitespace. -/
def skipWs : List Char → List Char
  | [] => []
  | c :: cs => if isWs c then skipWs cs else c :: cs

/-- The value of a hexadecimal digit. -/
def hexVal (c : Char) : Option Nat :=
  if '0' ≤ c ∧ c ≤ '9' then some (c.toNat - 48)
  else if 'a' ≤ c ∧ c ≤ 'f' then some (c.toNat - 87)
  else if 'A' ≤ c ∧ c ≤ 'F' then some (c.toNat - 55)
  else none

/-- Reads the body of a JSON string after its opening quote, decoding escape
sequences, up to the closing quote; yields the decoded string and the
remaining input. (Python's reader additionally rejects raw control
characters inside a string, which the serializer never emits.) -/
def readStringBody : List Char → Option (String × List Char)
  | [] => none
  | c :: cs =>
      if c = '"' then some ("", cs)
      else if c = '\\' then
        match cs with
        | [] => none
        | e :: cs' =>
            if e = '"' then
              (readStringBody cs').map
                (fun p => (String.singleton '"' ++ p.1, p.2))
            else if e = '\\' then
              (readStringBody cs').map
                (fun p => (String.singleton '\\' ++ p.1, p.2))
            else if e = '/' then
              (readStringBody cs').map
                (fun p => (String.singleton '/' ++ p.1, p.2))
            else if e = 'n' then
              (readStringBody cs').map
                (fun p => (String.singleton '\n' ++ p.1, p.2))
            else if e = 't' then
              (readStringBody cs').map
                (fun p => (String.singleton '\t' ++ p.1, p.2))
            else if e = 'r' then
              (readStringBody cs').map
                (fun p => (String.singleton '\r' ++ p.1, p.2))
            else if e = 'b' then
              (readStringBody cs').map
                (fun p => (String.singleton (Char.ofNat 8) ++ p.1, p.2))
            else if e = 'f' then
              (readStringBody cs').map
                (fun p => (String.singleton (Char.ofNat 12) ++ p.1, p.2))
            else if e = 'u' then
              match cs' with
              | a :: b :: c₂ :: d :: rest =>
                  match hexVal a, hexVal b, hexVal c₂, hexVal d with
                  | some x, some y, some z, some w =>
                      (readStringBody rest).map
                        (fun p => (String.singleton
                          (Char.ofNat (((x * 16 + y) * 16 + z) * 16 + w)) ++
                            p.1, p.2))
                  | _, _, _, _ => none
              | _ => none
            else none
      else
        (readStringBody cs).map
          (fun p => (String.singleton c ++ p.1, p.2))

/-- Reads a maximal run of decimal digits; yields its value, its length and
the remaining input, and fails on an empty run. -/
def readDigits (cs : List Char) : Option (Nat × Nat × List Char) :=
  let ds := cs.takeWhile Char.isDigit
  if ds.isEmpty then none
  else some (ds.foldl (fun a c => a * 10 + (c.toNat - 48)) 0, ds.length,
    cs.drop ds.length)

/-- Reads a JSON number (sign, integer part, optional fraction, optional
exponent) as an exact rational. -/
def readNumber (cs : List Char) : Option (ℚ × List Char) :=
  let (neg, cs₁) :=
    match cs with
    | '-' :: rest => (true, rest)
    | _ => (false, cs)
  match readDigits cs₁ with
  | none => none
  | some (ip, _, cs₂) =>
      let (mant, cs₃) :=
        match cs₂ with
        | '.' :: rest =>
            match readDigits rest with
            | some (fv, fk, cs') => ((ip : ℚ) + (fv : ℚ) / (10 ^ fk : ℚ), cs')
            | none => ((ip : ℚ), '.' :: rest)
        | _ => ((ip : ℚ), cs₂)
      let (val, cs₄) :=
        match cs₃ with
        | e :: rest =>
            if e = 'e' ∨ e = 'E' then
              let (eneg, rest₁) :=
                match rest with
                | '-' :: r => (true, r)
                | '+' :: r => (false, r)
                | _ => (false, rest)
              match readDigits rest₁ with
              | some (ev, _, cs') =>
                  (if eneg then mant / (10 ^ ev : ℚ) else mant * (10 ^ ev : ℚ),
                    cs')
              | none => (mant, e :: rest)
            else (mant, e :: rest)
        | [] => (mant, [])
      some (if neg then -val else val, cs₄)

mutual

/-- Reads one JSON value from the input, whitespace allowed before it. -/
def readVal : Nat → List Char → Option (JsonVal × List Char)
  | 0, _ => none
  | fuel + 1, cs =>
      match skipWs cs with
      | [] => none
      | c :: rest =>
          if c = '"' then
            (readStringBody rest).map
              (fun p => (.str p.1, p.2))
          else if c = '\x7b' then
            match skipWs rest with
            | '\x7d' :: rest' => some (.obj [], rest')
            | rest' => (readMembers fuel rest').map
                (fun p => (.obj p.1, p.2))
          else if c = '[' then
            match skipWs rest with
            | ']' :: rest' => some (.arr [], rest')
            | rest' => (readElems fuel rest').map
                (fun p => (.arr p.1, p.2))
          else if c = 't' then
            match rest with
            | 'r' :: 'u' :: 'e' :: rest' => some (.boolean true, rest')
            | _ => none
          else if c = 'f' then
            match rest with
            | 'a' :: 'l' :: 's' :: 'e' :: rest' => some (.boolean false, rest')
            | _ => none
          else if c = 'n' then
            match rest with
            | 'u' :: 'l' :: 'l' :: rest' => some (.null, rest')
            | _ => none
          else
            (readNumber (c :: rest)).map (fun p => (.num p.1, p.2))

/-- Reads the elements of a non-empty JSON array, after its opening
bracket. -/
def readElems : Nat → List Char → Option (List JsonVal × List Char)
  | 0, _ => none
  | fuel + 1, cs =>
      match readVal fuel cs with
      | none => none
      | some (v, rest) =>
          match skipWs rest with
          | ',' :: rest' =>
              (readElems fuel rest').map (fun p => (v :: p.1, p.2))
          | ']' :: rest' => some ([v], rest')
          | _ => none

/-- Reads the members of a non-empty JSON object, after its opening
brace. -/
def readMembers : Nat → List Char → Option (List (String × JsonVal) × List Char)
  | 0, _ => none
  | fuel + 1, cs =>
      match skipWs cs with
      | '"' :: rest =>
          match readStringBody rest with
          | none => none
          | some (k, rest₁) =>
              match skipWs rest₁ with
              | ':' :: rest₂ =>
                  match readVal fuel rest₂ with
                  | none => none
                  | some (v, rest₃) =>
                      match skipWs rest₃ with
                      | ',' :: rest₄ =>
                          (readMembers fuel rest₄).map
                            (fun p => ((k, v) :: p.1, p.2))
                      | '\x7d' :: rest₄ => some ([(k, v)], rest₄)
                      | _ => none
              | _ => none
      | _ => none

end

/-- `json.loads`: reads a whole document; trailing content other than
whitespace is a failure. -/
def loads (s : String) : Option JsonVal :=
  match readVal (2 * s.length + 4) s.data with
  | some (v, rest) => if (skipWs rest).isEmpty then some v else none
  | none => none

/-- `AstronomicalBody.from_json`: deserialize the model from JSON text.
Unreadable text fails with the aggregated-`ValidationError` kind, as the
library's parsing error does; a readable document is validated by
`from_json_val`. -/
def from_json (s : String) : Except ConstructError AstronomicalBody :=
  match loads s with
  | some v => from_json_val v
  | none => .error (.validationError ["Invalid JSON"])

/-- The `Star` dataclass. Python dataclasses do not coerce field values, and
the one `Star` the program builds is `Star(name="Sun", temperature=5778)`,
whose `temperature` holds the integer `5778`; `__str__` interpolates `str`
of the stored value. The field is therefore modelled with the integer type
it actually holds, whose Python `str` agrees with `toString`. -/
structure Star where
  name : String
  temperature : ℤ
deriving DecidableEq, Repr

/-- `Star.__str__`: the f-string `"<name> (Temperature: <temperature>K)"`. -/
def Star.str (s : Star) : String :=
  s.name ++ " (Temperature: " ++ toString s.temperature ++ "K)"

/-- One print statement of `main`, with the values it renders. -/
inductive Event where
  | printedCreated (body : AstronomicalBody)
  | printedSerialized (json_data : String)
  | printedDeserializing
  | printedRestored (body : AstronomicalBody)
  | printedValidationError (errors : List String)
  | printedInvalidName (planet_name : String)
  | printedStar (text : String)
deriving DecidableEq, Repr

/-- How a run of `main` ends after argument parsing: either the GUI window is
populated with its four text strings, or evaluating the first GUI text raises
an uncaught `NameError` because the named local variable was never bound. -/
inductive MainResult where
  | guiShown (printed : List Event) (guiTexts : List String)
  | nameErrorCrash (printed : List Event) (unboundVariable : String)
deriving DecidableEq, Repr

/-- The behaviour of `main` after `argparse` has supplied `name`, `radius`
and `atmosphere`: the `try` block constructs the body, prints it, serializes,
deserializes and prints the restored record; the two `except` arms print the
error instead. `sun` is then created and printed unconditionally. The GUI
block that follows interpolates `body.name`, `body.radius` and
`body.atmosphere_composition`; Python resolves the name `body` at run time,
so when construction failed the variable was never bound and the first GUI
line raises `NameError`, which no handler catches. -/
def main (name : String) (radius : ℚ) (atmosphere : List String) :
    MainResult :=
  let sun : Star := ⟨"Sun", 5778⟩
  let tryResult : List Event × Option AstronomicalBody :=
    match AstronomicalBody.construct name radius atmosphere with
    | .ok body =>
        let json_data := AstronomicalBody.to_json body
        match from_json json_data with
        | .ok restored =>
            ([.printedCreated body, .printedSerialized json_data,
              .printedDeserializing, .printedRestored restored], some body)
        | .error (.validationError errs) =>
            ([.printedCreated body, .printedSerialized json_data,
              .printedDeserializing, .printedValidationError errs], some body)
        | .error (.invalidName n) =>
            ([.printedCreated body, .printedSerialized json_data,
              .printedDeserializing, .printedInvalidName n], some body)
    | .error (.validationError errs) =>
        ([.printedValidationError errs], none)
    | .error (.invalidName n) =>
        ([.printedInvalidName n], none)
  let printed := tryResult.1 ++ [.printedStar (Star.str sun)]
  match tryResult.2 with
  | some body =>
      .guiShown printed
        ["Planet Name: " ++ body.name,
          "Radius: " ++ floatRepr body.radius ++ " km",
          "Atmosphere: " ++ String.intercalate ", " body.atmosphere_composition,
          "Star: " ++ Star.str sun]
  | none => .nameErrorCrash printed "body"

/-! ### Helper lemmas -/

theorem asStringList_map_str (l : List String) :
    asStringList (l.map .str) = some l := by
  induction l with
  | nil => rfl
  | cons h t ih => simp [asStringList, ih]

/-- The well-typed payload shape: the three model fields keyed by their
names, in declaration order, with JSON values of the declared types. This is
exactly the member list `to_json_val` emits. -/
def payload (name : String) (radius : ℚ) (atmosphere : List String) :
    List (String × JsonVal) :=
  [("name", .str name), ("radius", .num radius),
    ("atmosphere_composition", .arr (atmosphere.map .str))]

theorem to_json_val_eq_payload (b : AstronomicalBody) :
    to_json_val b = .obj (payload b.name b.radius b.atmosphere_composition) :=
  rfl

theorem construct_ok_of_valid (name : String) (radius : ℚ)
    (atmosphere : List String) (hn : name ∈ planetValues) (hr : 0 < radius) :
    AstronomicalBody.construct name radius atmosphere =
      .ok ⟨name, radius, atmosphere⟩ := by
  simp [AstronomicalBody.construct, validate_name, hn, not_le.mpr hr, bind,
    Except.bind]

theorem construct_invalid_name_eq (name : String) (radius : ℚ)
    (atmosphere : List String) (hn : name ∉ planetValues) :
    AstronomicalBody.construct name radius atmosphere =
      .error (.invalidName name) := by
  simp [AstronomicalBody.construct, validate_name, hn, bind, Except.bind]

theorem construct_nonpositive_eq (name : String) (radius : ℚ)
    (atmosphere : List String) (hn : name ∈ planetValues) (hr : radius ≤ 0) :
    AstronomicalBody.construct name radius atmosphere =
      .error (.validationError ["radius: Input should be greater than 0"]) := by
  simp [AstronomicalBody.construct, validate_name, hn, hr, bind, Except.bind]

theorem from_json_val_payload (name : String) (radius : ℚ)
    (atmosphere : List String) :
    from_json_val (.obj (payload name radius atmosphere)) =
      AstronomicalBody.construct name radius atmosphere := by
  by_cases hn : name ∈ planetValues
  · by_cases hr : radius ≤ 0
    · simp [from_json_val, payload, getField, radiusField, atmosphereField,
        AstronomicalBody.construct, validate_name, hn, hr,
        asStringList_map_str, bind, Except.bind]
    · simp [from_json_val, payload, getField, radiusField, atmosphereField,
        AstronomicalBody.construct, validate_name, hn, hr,
        asStringList_map_str, bind, Except.bind]
  · simp [from_json_val, payload, getField, radiusField, atmosphereField,
      AstronomicalBody.construct, validate_name, hn, asStringList_map_str,
      bind, Except.bind]

theorem getField_of_not_mem (l : List (String × JsonVal)) (key : String)
    (h : ∀ kv ∈ l, kv.1 ≠ key) : getField l key = none := by
  induction l with
  | nil => rfl
  | cons kv rest ih =>
      have hk : kv.1 ≠ key := h kv (List.mem_cons_self kv rest)
      have : getField rest key = none :=
        ih (fun kv' hkv' => h kv' (List.mem_cons_of_mem kv hkv'))
      simp [getField, this, hk]

theorem getField_append (l₁ l₂ : List (String × JsonVal)) (key : String)
    (h : ∀ kv ∈ l₂, kv.1 ≠ key) :
    getField (l₁ ++ l₂) key = getField l₁ key := by
  induction l₁ with
  | nil => simpa using getField_of_not_mem l₂ key h
  | cons kv rest ih => simp [getField, ih]

theorem radiusField_append (l₁ l₂ : List (String × JsonVal))
    (h : ∀ kv ∈ l₂, kv.1 ≠ "radius") :
    radiusField (l₁ ++ l₂) = radiusField l₁ := by
  unfold radiusField
  rw [getField_append _ _ _ h]

theorem atmosphereField_append (l₁ l₂ : List (String × JsonVal))
    (h : ∀ kv ∈ l₂, kv.1 ≠ "atmosphere_composition") :
    atmosphereField (l₁ ++ l₂) = atmosphereField l₁ := by
  unfold atmosphereField
  rw [getField_append _ _ _ h]

theorem from_json_val_append (members extras : List (String × JsonVal))
    (h : ∀ kv ∈ extras,
      kv.1 ∉ (["name", "radius", "atmosphere_composition"] : List String)) :
    from_json_val (.obj (members ++ extras)) = from_json_val (.obj members) := by
  have hn : ∀ kv ∈ extras, kv.1 ≠ "name" := by
    intro kv hkv; have := h kv hkv; simp at this; exact this.1
  have hr : ∀ kv ∈ extras, kv.1 ≠ "radius" := by
    intro kv hkv; have := h kv hkv; simp at this; exact this.2.1
  have ha : ∀ kv ∈ extras, kv.1 ≠ "atmosphere_composition" := by
    intro kv hkv; have := h kv hkv; simp at this; exact this.2.2
  simp only [from_json_val]
  rw [getField_append _ _ _ hn, radiusField_append _ _ hr,
    atmosphereField_append _ _ ha]

theorem radiusField_ok_pos (members : List (String × JsonVal)) (q : ℚ)
    (h : radiusField members = .ok q) : 0 < q := by
  unfold radiusField at h
  split at h
  next q' heq =>
    split at h
    · exact absurd h (by simp)
    · next hle => injection h with h'; subst h'; exact lt_of_not_le hle
  next => exact absurd h (by simp)
  next => exact absurd h (by simp)

theorem construct_ok_inv (name : String) (radius : ℚ)
    (atmosphere : List String) (r : AstronomicalBody)
    (h : AstronomicalBody.construct name radius atmosphere = .ok r) :
    r.name ∈ planetValues ∧ 0 < r.radius := by
  unfold AstronomicalBody.construct validate_name at h
  by_cases hn : name ∈ planetValues
  · simp [hn, bind, Except.bind] at h
    by_cases hr : radius ≤ 0
    · simp [hr] at h
    · simp [hr] at h
      subst h
      exact ⟨hn, lt_of_not_le hr⟩
  · simp [hn, bind, Except.bind] at h

theorem from_json_val_ok_inv (j : JsonVal) (r : AstronomicalBody)
    (h : from_json_val j = .ok r) :
    r.name ∈ planetValues ∧ 0 < r.radius := by
  cases j with
  | obj members =>
      simp only [from_json_val] at h
      split at h
      · next v heq =>
          split at h
          · next hv =>
              split at h
              · next q a hrf haf =>
                  injection h with h'
                  subst h'
                  exact ⟨hv, radiusField_ok_pos members q hrf⟩
              · exact absurd h (by simp)
              · exact absurd h (by simp)
              · exact absurd h (by simp)
          · exact absurd h (by simp)
      · exact absurd h (by simp)
  | str s => exact absurd h (by simp [from_json_val])
  | num q => exact absurd h (by simp [from_json_val])
  | boolean b => exact absurd h (by simp [from_json_val])
  | null => exact absurd h (by simp [from_json_val])
  | arr l => exact absurd h (by simp [from_json_val])

/-! ### Verified text codec: the serializer output parses back exactly -/

/-- The numeric value of a run of digit characters, as `readDigits` folds
it. -/

def digitsVal (l : List Char) : ℕ :=
  l.foldl (fun a c => a * 10 + (c.toNat - 48)) 0

theorem digit_char_facts : ∀ d < 10, (Char.ofNat (48 + d)).isDigit = true ∧
    (Char.ofNat (48 + d)).toNat - 48 = d := by decide

theorem natCharsAux_isDigit :
    ∀ (fuel n : ℕ) (c : Char), c ∈ natCharsAux fuel n → c.isDigit = true := by
  intro fuel
  induction fuel with
  | zero => intro n c hc; simp [natCharsAux] at hc
  | succ f ih =>
      intro n c hc
      by_cases hn : n = 0
      · simp [natCharsAux, hn] at hc
      · simp only [natCharsAux, if_neg hn, List.mem_append,
          List.mem_singleton] at hc
        rcases hc with hc | hc
        · exact ih _ _ hc
        · subst hc
          exact (digit_char_facts (n % 10) (Nat.mod_lt _ (by norm_num))).1

theorem natCharsAux_val :
    ∀ (fuel n : ℕ), n < 10 ^ fuel → digitsVal (natCharsAux fuel n) = n := by
  intro fuel
  induction fuel with
  | zero =>
      intro n hn
      interval_cases n
      rfl
  | succ f ih =>
      intro n hn
      by_cases h0 : n = 0
      · simp [natCharsAux, h0, digitsVal]
      · have hdiv : n / 10 < 10 ^ f := by
          rw [Nat.div_lt_iff_lt_mul (by norm_num)]
          calc n < 10 ^ (f + 1) := hn
          _ = 10 ^ f * 10 := by rw [pow_succ]
        simp only [natCharsAux, if_neg h0, digitsVal, List.foldl_append]
        rw [show List.foldl (fun a c => a * 10 + (c.toNat - 48)) 0
            (natCharsAux f (n / 10)) = digitsVal (natCharsAux f (n / 10))
          from rfl, ih _ hdiv]
        simp only [List.foldl_cons, List.foldl_nil]
        rw [(digit_char_facts (n % 10) (Nat.mod_lt _ (by norm_num))).2]
        omega

theorem natCharsAux_length :
    ∀ (fuel n j : ℕ), n < 10 ^ j → (natCharsAux fuel n).length ≤ j := by
  intro fuel
  induction fuel with
  | zero => intro n j _; simp [natCharsAux]
  | succ f ih =>
      intro n j hn
      by_cases h0 : n = 0
      · simp [natCharsAux, h0]
      · have hj : j ≠ 0 := by
          rintro rfl
          simp at hn
          exact h0 hn
        obtain ⟨j', rfl⟩ := Nat.exists_eq_succ_of_ne_zero hj
        have hdiv : n / 10 < 10 ^ j' := by
          rw [Nat.div_lt_iff_lt_mul (by norm_num)]
          calc n < 10 ^ (j' + 1) := hn
          _ = 10 ^ j' * 10 := by rw [pow_succ]
        simp only [natCharsAux, if_neg h0, List.length_append,
          List.length_singleton]
        have := ih (n / 10) j' hdiv
        omega

theorem natCharsAux_ne_nil (fuel n : ℕ) (h0 : n ≠ 0) :
    natCharsAux (fuel + 1) n ≠ [] := by
  simp [natCharsAux, if_neg h0]

theorem natChars_isDigit (n : ℕ) (c : Char) (hc : c ∈ natChars n) :
    c.isDigit = true := by
  unfold natChars at hc
  by_cases h0 : n = 0
  · simp [h0] at hc
    subst hc
    decide
  · rw [if_neg h0] at hc
    exact natCharsAux_isDigit _ _ _ hc

theorem natChars_val (n : ℕ) : digitsVal (natChars n) = n := by
  unfold natChars
  by_cases h0 : n = 0
  · simp [h0]; decide
  · rw [if_neg h0]
    exact natCharsAux_val _ _ (lt_of_lt_of_le (Nat.lt_pow_self (by norm_num) n)
      (pow_le_pow_right₀ (by norm_num) (Nat.le_succ n)))

theorem natChars_ne_nil (n : ℕ) : natChars n ≠ [] := by
  unfold natChars
  by_cases h0 : n = 0
  · simp [h0]
  · rw [if_neg h0]
    exact natCharsAux_ne_nil _ _ h0

theorem natChars_length (n j : ℕ) (hj : 1 ≤ j) (hn : n < 10 ^ j) :
    (natChars n).length ≤ j := by
  unfold natChars
  by_cases h0 : n = 0
  · simpa [h0] using hj
  · rw [if_neg h0]
    exact natCharsAux_length _ _ _ hn

theorem takeWhile_append_all {p : Char → Bool} (l rest : List Char)
    (hall : ∀ c ∈ l, p c = true)
    (hr : ∀ c, rest.head? = some c → p c = false) :
    (l ++ rest).takeWhile p = l := by
  induction l with
  | nil =>
      cases rest with
      | nil => rfl
      | cons c t => simp [List.takeWhile_cons, hr c rfl]
  | cons c t ih =>
      simp only [List.cons_append, List.takeWhile_cons,
        hall c (List.mem_cons_self c t), if_true, List.cons.injEq, true_and]
      exact ih (fun c' hc' => hall c' (List.mem_cons_of_mem c hc'))

theorem readDigits_append (l rest : List Char) (hne : l ≠ [])
    (hdig : ∀ c ∈ l, c.isDigit = true)
    (hr : ∀ c, rest.head? = some c → c.isDigit = false) :
    readDigits (l ++ rest) = some (digitsVal l, l.length, rest) := by
  unfold readDigits
  rw [takeWhile_append_all l rest hdig hr]
  simp [List.isEmpty_iff, hne, digitsVal, List.drop_left]

theorem readNumber_digits_frac (ic fc tail : List Char)
    (hine : ic ≠ []) (hidig : ∀ c ∈ ic, c.isDigit = true)
    (hfne : fc ≠ []) (hfdig : ∀ c ∈ fc, c.isDigit = true) :
    readNumber (ic ++ '.' :: (fc ++ ',' :: tail)) =
      some ((digitsVal ic : ℚ) + (digitsVal fc : ℚ) / (10 ^ fc.length : ℚ),
        ',' :: tail) := by
  obtain ⟨c₀, ic', rfl⟩ : ∃ c₀ ic', ic = c₀ :: ic' := by
    cases ic with
    | nil => exact absurd rfl hine
    | cons a b => exact ⟨a, b, rfl⟩
  have hc₀ : c₀.isDigit = true := hidig c₀ (List.mem_cons_self _ _)
  have hc₀ne : c₀ ≠ '-' := by rintro rfl; exact absurd hc₀ (by decide)
  have hrd1 : readDigits (c₀ :: ic' ++ '.' :: (fc ++ ',' :: tail)) =
      some (digitsVal (c₀ :: ic'), (c₀ :: ic').length,
        '.' :: (fc ++ ',' :: tail)) := by
    refine readDigits_append _ _ hine hidig ?_
    intro c hc
    simp only [List.head?_cons, Option.some.injEq] at hc
    subst hc
    decide
  have hrd2 : readDigits (fc ++ ',' :: tail) =
      some (digitsVal fc, fc.length, ',' :: tail) := by
    refine readDigits_append _ _ hfne hfdig ?_
    intro c hc
    simp only [List.head?_cons, Option.some.injEq] at hc
    subst hc
    decide
  have hsign : (match c₀ :: ic' ++ '.' :: (fc ++ ',' :: tail) with
      | '-' :: rest => (true, rest)
      | x => (false, c₀ :: ic' ++ '.' :: (fc ++ ',' :: tail))) =
      ((false : Bool), c₀ :: ic' ++ '.' :: (fc ++ ',' :: tail)) := by
    split
    next heq => exact absurd (List.cons.inj heq).1 hc₀ne
    next => rfl
  simp only [readNumber, hsign, hrd1, hrd2]
  norm_num
  exact fun h => absurd h (by decide)

theorem digitsVal_replicate_zero (z : ℕ) (l : List Char) :
    digitsVal (List.replicate z '0' ++ l) = digitsVal l := by
  induction z with
  | zero => rfl
  | succ z ih => simpa [List.replicate_succ, digitsVal] using ih

theorem readNumber_floatRepr (q : ℚ) (tail : List Char)
    (hq : 0 < q) (hdvd : q.den ∣ 10 ^ 1074) :
    readNumber (floatReprChars q ++ ',' :: tail) = some (q, ',' :: tail) := by
  have hnum : 0 < q.num := Rat.num_pos.mpr hq
  have hsign : ¬(q.num < 0) := not_lt.mpr (le_of_lt hnum)
  have hd0 : 0 < q.den := Rat.den_pos q
  have hcast : ((q.num.natAbs : ℕ) : ℚ) = (q.num : ℚ) := by
    rw [← Int.cast_natCast]
    rw [Int.natAbs_of_nonneg (le_of_lt hnum)]
  obtain ⟨k, hk⟩ : ∃ k, (List.range 1075).find? (fun k => 10 ^ k % q.den == 0)
      = some k := by
    rcases hfe : (List.range 1075).find? (fun k => 10 ^ k % q.den == 0)
      with _ | k
    · exfalso
      exact List.find?_eq_none.mp hfe 1074 (List.mem_range.mpr (by norm_num))
        (by simp [Nat.mod_eq_zero_of_dvd hdvd])
    · exact ⟨k, rfl⟩
  have hkdvd : q.den ∣ 10 ^ k := by
    have := List.find?_some hk
    exact Nat.dvd_of_mod_eq_zero (by simpa using this)
  simp only [floatReprChars, if_neg hsign, hk]
  by_cases hk0 : k = 0
  · subst hk0
    have hden1 : q.den = 1 := Nat.dvd_one.mp (by simpa using hkdvd)
    simp only [if_pos rfl, if_true, List.nil_append]
    have hshape : (natChars q.num.natAbs ++ ['.', '0']) ++ ',' :: tail =
        natChars q.num.natAbs ++ '.' :: (['0'] ++ ',' :: tail) := by
      simp
    rw [hshape, readNumber_digits_frac _ _ _ (natChars_ne_nil _)
      (fun c hc => natChars_isDigit _ c hc) (by simp)
      (by intro c hc; simp at hc; subst hc; decide)]
    simp only [Option.some.injEq, Prod.mk.injEq]
    refine ⟨?_, trivial⟩
    show (digitsVal (natChars q.num.natAbs) : ℚ) +
      (digitsVal ['0'] : ℚ) / (10 ^ (['0'] : List Char).length : ℚ) = q
    rw [natChars_val, show (digitsVal ['0'] : ℕ) = 0 from rfl]
    norm_num
    rw [hcast]
    conv_rhs => rw [← Rat.num_div_den q]
    rw [hden1]
    norm_num
  · -- k ≠ 0 : the fractional branch
    rw [if_neg hk0]
    set m := q.num.natAbs * (10 ^ k / q.den) with hm
    set fp := natChars (m % 10 ^ k) with hfp
    set pad := List.replicate (k - fp.length) '0' with hpad
    have hfplen : fp.length ≤ k := by
      rw [hfp]
      exact natChars_length _ _ (Nat.one_le_iff_ne_zero.mpr hk0)
        (Nat.mod_lt _ (Nat.pos_pow_of_pos k (by norm_num)))
    have hshape : (([] : List Char) ++ natChars (m / 10 ^ k) ++ ['.'] ++ pad ++ fp)
        ++ ',' :: tail =
        natChars (m / 10 ^ k) ++ '.' :: ((pad ++ fp) ++ ',' :: tail) := by
      simp
    rw [hshape, readNumber_digits_frac _ _ _ (natChars_ne_nil _)
      (fun c hc => natChars_isDigit _ c hc)
      (by
        intro hemp
        exact natChars_ne_nil (m % 10 ^ k) (List.append_eq_nil.mp hemp).2)
      (by
        intro c hc
        rcases List.mem_append.mp hc with hc | hc
        · rw [List.eq_of_mem_replicate hc]; decide
        · exact natChars_isDigit _ c hc)]
    simp only [Option.some.injEq, Prod.mk.injEq]
    refine ⟨?_, trivial⟩
    show (digitsVal (natChars (m / 10 ^ k)) : ℚ) +
      (digitsVal (pad ++ fp) : ℚ) / (10 ^ (pad ++ fp).length : ℚ) = q
    have hlen : (pad ++ fp).length = k := by
      rw [List.length_append, hpad, List.length_replicate]
      omega
    rw [natChars_val, hpad, digitsVal_replicate_zero, hfp, natChars_val, hlen]
    -- now: ↑(m / 10^k) + ↑(m % 10^k) / 10^k = q
    have hpow0 : ((10 : ℚ) ^ k) ≠ 0 := by positivity
    have he : q.den * (10 ^ k / q.den) = 10 ^ k := Nat.mul_div_cancel' hkdvd
    have he0 : 0 < 10 ^ k / q.den :=
      Nat.div_pos (Nat.le_of_dvd (Nat.pos_pow_of_pos k (by norm_num)) hkdvd) hd0
    have key : ((m / 10 ^ k : ℕ) : ℚ) + ((m % 10 ^ k : ℕ) : ℚ) / ((10 : ℚ) ^ k)
        = ((m : ℕ) : ℚ) / ((10 : ℚ) ^ k) := by
      field_simp
      exact_mod_cast Nat.div_add_mod' m (10 ^ k)
    rw [key]
    have hm' : ((m : ℕ) : ℚ) = (q.num.natAbs : ℚ) * ((10 ^ k / q.den : ℕ) : ℚ) := by
      rw [hm]
      push_cast
      ring
    have hp' : ((10 : ℚ) ^ k) = (q.den : ℚ) * ((10 ^ k / q.den : ℕ) : ℚ) := by
      rw [show ((10 : ℚ) ^ k) = ((10 ^ k : ℕ) : ℚ) from by push_cast; ring]
      exact_mod_cast congrArg (fun x : ℕ => (x : ℚ)) he.symm
    rw [hm', hp', mul_div_mul_right _ _ (by exact_mod_cast Nat.pos_iff_ne_zero.mp he0), hcast]
    exact Rat.num_div_den q

theorem hexVal_hexDigit : ∀ m < 16, hexVal (hexDigit m) = some m := by decide

theorem singleton_append_mk (c : Char) (l : List Char) :
    String.singleton c ++ String.mk l = String.mk (c :: l) := rfl

theorem readStringBody_escape (l rest : List Char) :
    readStringBody (escapeList l ++ '"' :: rest) = some (String.mk l, rest) := by
  induction l with
  | nil =>
      rw [show escapeList [] ++ '"' :: rest = '"' :: rest from rfl,
        readStringBody.eq_def]
      simp
  | cons c cs ih =>
      rw [show escapeList (c :: cs) = escapeChar c ++ escapeList cs from rfl,
        List.append_assoc]
      by_cases h1 : c = '"'
      · subst h1
        rw [show escapeChar '"' = ['\\', '"'] from rfl, List.cons_append,
          List.cons_append, List.nil_append, readStringBody.eq_def]
        simp [ih, singleton_append_mk]
      · by_cases h2 : c = '\\'
        · subst h2
          rw [show escapeChar '\\' = ['\\', '\\'] from rfl, List.cons_append,
            List.cons_append, List.nil_append, readStringBody.eq_def]
          simp [ih, singleton_append_mk]
        · by_cases h3 : c = '\n'
          · subst h3
            rw [show escapeChar '\n' = ['\\', 'n'] from rfl, List.cons_append,
              List.cons_append, List.nil_append, readStringBody.eq_def]
            simp [ih, singleton_append_mk]
          · by_cases h4 : c = '\t'
            · subst h4
              rw [show escapeChar '\t' = ['\\', 't'] from rfl,
                List.cons_append, List.cons_append, List.nil_append,
                readStringBody.eq_def]
              simp [ih, singleton_append_mk]
            · by_cases h5 : c = '\r'
              · subst h5
                rw [show escapeChar '\r' = ['\\', 'r'] from rfl,
                  List.cons_append, List.cons_append, List.nil_append,
                  readStringBody.eq_def]
                simp [ih, singleton_append_mk]
              · by_cases h6 : c = Char.ofNat 8
                · subst h6
                  rw [show escapeChar (Char.ofNat 8) = ['\\', 'b'] from rfl,
                    List.cons_append, List.cons_append, List.nil_append,
                    readStringBody.eq_def]
                  simp [ih, singleton_append_mk]
                · by_cases h7 : c = Char.ofNat 12
                  · subst h7
                    rw [show escapeChar (Char.ofNat 12) = ['\\', 'f'] from rfl,
                      List.cons_append, List.cons_append, List.nil_append,
                      readStringBody.eq_def]
                    simp [ih, singleton_append_mk]
                  · by_cases h8 : c.toNat < 32
                    · have hhi : hexVal (hexDigit (c.toNat / 16)) =
                          some (c.toNat / 16) := hexVal_hexDigit _ (by omega)
                      have hlo : hexVal (hexDigit (c.toNat % 16)) =
                          some (c.toNat % 16) :=
                        hexVal_hexDigit _ (Nat.mod_lt _ (by norm_num))
                      have harg : ((0 * 16 + 0) * 16 + c.toNat / 16) * 16 +
                          c.toNat % 16 = c.toNat := by omega
                      have harg2 : c.toNat / 16 * 16 + c.toNat % 16 =
                          c.toNat := by omega
                      rw [show escapeChar c = ['\\', 'u', '0', '0',
                          hexDigit (c.toNat / 16), hexDigit (c.toNat % 16)]
                        from by simp [escapeChar, h1, h2, h3, h4, h5, h6, h7,
                          h8]]
                      rw [List.cons_append, List.cons_append, List.cons_append,
                        List.cons_append, List.cons_append, List.cons_append,
                        List.nil_append, readStringBody.eq_def]
                      simp [show hexVal '0' = some 0 from rfl, hhi, hlo, harg,
                        harg2, Char.ofNat_toNat, ih, singleton_append_mk]
                    · rw [show escapeChar c = [c] from by
                        simp [escapeChar, h1, h2, h3, h4, h5, h6, h7, h8]]
                      rw [List.cons_append, List.nil_append,
                        readStringBody.eq_def]
                      simp [h1, h2, ih, singleton_append_mk]

theorem skipWs_cons (c : Char) (cs : List Char) (h : isWs c = false) :
    skipWs (c :: cs) = c :: cs := by
  rw [skipWs.eq_def]
  simp [h]

theorem isWs_eq_false_of_isDigit (c : Char) (h : c.isDigit = true) :
    isWs c = false := by
  by_contra hw
  have hw' : isWs c = true := by revert hw; cases isWs c <;> simp
  simp only [isWs, Bool.or_eq_true, beq_iff_eq] at hw'
  rcases hw' with ((rfl | rfl) | rfl) | rfl <;> exact absurd h (by decide)

theorem isDigit_ne_marks (c : Char) (h : c.isDigit = true) :
    c ≠ '"' ∧ c ≠ '\x7b' ∧ c ≠ '[' ∧ c ≠ 't' ∧ c ≠ 'f' ∧ c ≠ 'n' := by
  refine ⟨?_, ?_, ?_, ?_, ?_, ?_⟩ <;> (rintro rfl; exact absurd h (by decide))

theorem readVal_string (f : ℕ) (l rest : List Char) :
    readVal (f + 1) ('"' :: (escapeList l ++ '"' :: rest)) =
      some (.str (String.mk l), rest) := by
  simp only [readVal]
  rw [skipWs_cons _ _ (by decide)]
  simp [readStringBody_escape]

theorem readVal_of_readNumber (f : ℕ) (c : Char) (cs : List Char)
    (hdig : c.isDigit = true) (q : ℚ) (rest : List Char)
    (hrn : readNumber (c :: cs) = some (q, rest)) :
    readVal (f + 1) (c :: cs) = some (.num q, rest) := by
  obtain ⟨hq, hb, hbr, ht, hf, hn⟩ := isDigit_ne_marks c hdig
  simp only [readVal]
  rw [skipWs_cons _ _ (isWs_eq_false_of_isDigit c hdig)]
  simp [hq, hb, hbr, ht, hf, hn, hrn]

theorem floatReprChars_head (q : ℚ) (hq : 0 < q) :
    ∃ d ds, floatReprChars q = d :: ds ∧ d.isDigit = true := by
  have hsign : ¬(q.num < 0) := not_lt.mpr (le_of_lt (Rat.num_pos.mpr hq))
  simp only [floatReprChars, if_neg hsign]
  rcases hfind : (List.range 1075).find? (fun k => 10 ^ k % q.den == 0)
    with _ | k
  · rcases hnc : natChars q.num.natAbs with _ | ⟨c, l⟩
    · exact absurd hnc (natChars_ne_nil _)
    · refine ⟨c, l ++ '/' :: natChars q.den, ?_,
        natChars_isDigit _ c (hnc ▸ List.mem_cons_self c l)⟩
      simp [hnc]
  · by_cases hk0 : k = 0
    · subst hk0
      rcases hnc : natChars q.num.natAbs with _ | ⟨c, l⟩
      · exact absurd hnc (natChars_ne_nil _)
      · refine ⟨c, l ++ ['.', '0'], ?_,
          natChars_isDigit _ c (hnc ▸ List.mem_cons_self c l)⟩
        simp [hnc]
    · rcases hnc : natChars (q.num.natAbs * (10 ^ k / q.den) / 10 ^ k)
        with _ | ⟨c, l⟩
      · exact absurd hnc (natChars_ne_nil _)
      · refine ⟨c, l ++ ['.'] ++
          List.replicate
            (k - (natChars (q.num.natAbs * (10 ^ k / q.den) % 10 ^ k)).length)
            '0' ++
          natChars (q.num.natAbs * (10 ^ k / q.den) % 10 ^ k), ?_,
          natChars_isDigit _ c (hnc ▸ List.mem_cons_self c l)⟩
        simp [hnc, hk0]

theorem readVal_number (f : ℕ) (q : ℚ) (tail : List Char) (hq : 0 < q)
    (hdvd : q.den ∣ 10 ^ 1074) :
    readVal (f + 1) (floatReprChars q ++ ',' :: tail) =
      some (.num q, ',' :: tail) := by
  obtain ⟨d, ds, hds, hdig⟩ := floatReprChars_head q hq
  have hrn := readNumber_floatRepr q tail hq hdvd
  rw [hds] at hrn ⊢
  rw [List.cons_append] at hrn ⊢
  exact readVal_of_readNumber f d _ hdig q _ hrn

theorem readElems_step (g : ℕ) (cs : List Char) :
    readElems (g + 1) cs =
      match readVal g cs with
      | none => none
      | some (v, rest) =>
          match skipWs rest with
          | ',' :: rest' =>
              (readElems g rest').map (fun p => (v :: p.1, p.2))
          | ']' :: rest' => some ([v], rest')
          | _ => none := by
  simp only [readElems]

theorem readElems_strs :
    ∀ (ss : List String) (s : String) (f : ℕ) (rest : List Char),
      ss.length + 2 ≤ f →
      readElems f (dumpsElemsChars ((s :: ss).map .str) ++ ']' :: rest) =
        some ((s :: ss).map .str, rest) := by
  intro ss
  induction ss with
  | nil =>
      intro s f rest hf
      obtain ⟨g, rfl⟩ : ∃ g, f = g + 2 := ⟨f - 2, by omega⟩
      rw [show dumpsElemsChars ([s].map .str) ++ ']' :: rest =
        '"' :: (escapeList s.data ++ '"' :: ']' :: rest) from by
          simp [dumpsElemsChars, dumpsChars]]
      show readElems (g + 1 + 1) _ = _
      rw [readElems_step]
      rw [readVal_string g s.data (']' :: rest)]
      rw [show String.mk s.data = s from rfl]
      simp [skipWs_cons, isWs]
  | cons y t ih =>
      intro s f rest hf
      obtain ⟨g, rfl⟩ : ∃ g, f = g + 2 := ⟨f - 2, by omega⟩
      have hf' : t.length + 2 ≤ g + 1 := by simp at hf; omega
      rw [show dumpsElemsChars ((s :: y :: t).map .str) ++ ']' :: rest =
        '"' :: (escapeList s.data ++ '"' ::
          (',' :: (dumpsElemsChars ((y :: t).map .str) ++ ']' :: rest)))
        from by simp [dumpsElemsChars, dumpsChars]]
      show readElems (g + 1 + 1) _ = _
      rw [readElems_step]
      rw [readVal_string g s.data _]
      rw [show String.mk s.data = s from rfl]
      simp [skipWs_cons, isWs]
      exact ih y (g + 1) rest hf'

theorem readVal_arr (f : ℕ) (strs : List String) (rest : List Char)
    (hf : strs.length + 1 ≤ f) :
    readVal (f + 1) ('[' :: (dumpsElemsChars (strs.map .str) ++ ']' :: rest)) =
      some (.arr (strs.map .str), rest) := by
  simp only [readVal]
  rw [skipWs_cons _ _ (by decide)]
  cases strs with
  | nil => simp [dumpsElemsChars, skipWs_cons, isWs]
  | cons s ss =>
      have hf'' : ss.length + 2 ≤ f := by simpa using hf
      obtain ⟨T, hT⟩ : ∃ T, dumpsElemsChars ((s :: ss).map .str) = '"' :: T := by
        cases ss with
        | nil =>
            exact ⟨escapeList s.data ++ ['"'],
              by simp [dumpsElemsChars, dumpsChars]⟩
        | cons y t =>
            exact ⟨escapeList s.data ++ '"' :: ',' ::
              dumpsElemsChars (JsonVal.str y :: t.map JsonVal.str),
              by simp [dumpsElemsChars, dumpsChars]⟩
      rw [hT, List.cons_append]
      have hback : '"' :: (T ++ ']' :: rest) =
          dumpsElemsChars ((s :: ss).map .str) ++ ']' :: rest := by
        rw [hT, List.cons_append]
      simp only [skipWs_cons _ _ (by decide : isWs '"' = false)]
      simp only [show ∀ X : List Char, (match ('"' :: X : List Char) with
        | ']' :: rest' => some (JsonVal.arr [], rest')
        | rest' => Option.map (fun p => (JsonVal.arr p.1, p.2))
            (readElems f rest')) =
          Option.map (fun p => (JsonVal.arr p.1, p.2))
            (readElems f ('"' :: X)) from fun X => rfl]
      rw [hback, readElems_strs ss s f rest hf'']
      simp

theorem readMembers_step (g : ℕ) (cs : List Char) :
    readMembers (g + 1) cs =
      match skipWs cs with
      | '"' :: rest =>
          match readStringBody rest with
          | none => none
          | some (k, rest₁) =>
              match skipWs rest₁ with
              | ':' :: rest₂ =>
                  match readVal g rest₂ with
                  | none => none
                  | some (v, rest₃) =>
                      match skipWs rest₃ with
                      | ',' :: rest₄ =>
                          (readMembers g rest₄).map
                            (fun p => ((k, v) :: p.1, p.2))
                      | '\x7d' :: rest₄ => some ([(k, v)], rest₄)
                      | _ => none
              | _ => none
      | _ => none := by
  simp only [readMembers]

theorem readMembers_more (g : ℕ) (key : String) (vchars tail rest : List Char)
    (v : JsonVal) (ms : List (String × JsonVal))
    (hv : readVal g (vchars ++ ',' :: tail) = some (v, ',' :: tail))
    (hrec : readMembers g tail = some (ms, rest)) :
    readMembers (g + 1)
      ('"' :: (escapeList key.data ++ '"' :: ':' :: (vchars ++ ',' :: tail))) =
      some ((key, v) :: ms, rest) := by
  rw [readMembers_step, skipWs_cons _ _ (by decide)]
  simp [readStringBody_escape, skipWs_cons, isWs, hv, hrec,
    show String.mk key.data = key from rfl]

theorem readMembers_last (g : ℕ) (key : String) (vchars rest : List Char)
    (v : JsonVal)
    (hv : readVal g (vchars ++ '\x7d' :: rest) = some (v, '\x7d' :: rest)) :
    readMembers (g + 1)
      ('"' :: (escapeList key.data ++ '"' :: ':' ::
        (vchars ++ '\x7d' :: rest))) =
      some ([(key, v)], rest) := by
  rw [readMembers_step, skipWs_cons _ _ (by decide)]
  simp [readStringBody_escape, skipWs_cons, isWs, hv,
    show String.mk key.data = key from rfl]

theorem readMembers_payload (A : ℕ) (name : String) (q : ℚ)
    (atmo : List String) (rest : List Char) (hA : atmo.length + 1 ≤ A)
    (hq : 0 < q) (hdvd : q.den ∣ 10 ^ 1074) :
    readMembers (A + 4)
      (dumpsMembersChars [("name", .str name), ("radius", .num q),
        ("atmosphere_composition", .arr (atmo.map .str))] ++ '\x7d' :: rest) =
      some ([("name", .str name), ("radius", .num q),
        ("atmosphere_composition", .arr (atmo.map .str))], rest) := by
  have h3 : readMembers (A + 2)
      ('"' :: (escapeList "atmosphere_composition".data ++ '"' :: ':' ::
        (('[' :: (dumpsElemsChars (atmo.map .str) ++ [']'])) ++
          '\x7d' :: rest))) =
      some ([("atmosphere_composition", .arr (atmo.map .str))], rest) := by
    apply readMembers_last
    rw [show ('[' :: (dumpsElemsChars (atmo.map .str) ++ [']'])) ++
        '\x7d' :: rest =
      '[' :: (dumpsElemsChars (atmo.map .str) ++ ']' :: '\x7d' :: rest)
      from by simp]
    exact readVal_arr A atmo ('\x7d' :: rest) hA
  have h2 : readMembers (A + 3)
      ('"' :: (escapeList "radius".data ++ '"' :: ':' ::
        (floatReprChars q ++ ',' ::
          ('"' :: (escapeList "atmosphere_composition".data ++ '"' :: ':' ::
            (('[' :: (dumpsElemsChars (atmo.map .str) ++ [']'])) ++
              '\x7d' :: rest)))))) =
      some ([("radius", .num q),
        ("atmosphere_composition", .arr (atmo.map .str))], rest) :=
    readMembers_more (A + 2) "radius" (floatReprChars q) _ rest (.num q) _
      (readVal_number (A + 1) q _ hq hdvd) h3
  have hv1 : readVal (A + 3)
      (dumpsChars (.str name) ++ ',' ::
        ('"' :: (escapeList "radius".data ++ '"' :: ':' ::
          (floatReprChars q ++ ',' ::
            ('"' :: (escapeList "atmosphere_composition".data ++ '"' :: ':' ::
              (('[' :: (dumpsElemsChars (atmo.map .str) ++ [']'])) ++
                '\x7d' :: rest))))))) =
      some (.str name, ',' ::
        ('"' :: (escapeList "radius".data ++ '"' :: ':' ::
          (floatReprChars q ++ ',' ::
            ('"' :: (escapeList "atmosphere_composition".data ++ '"' :: ':' ::
              (('[' :: (dumpsElemsChars (atmo.map .str) ++ [']'])) ++
                '\x7d' :: rest))))))) := by
    rw [show dumpsChars (.str name) ++ ',' ::
        ('"' :: (escapeList "radius".data ++ '"' :: ':' ::
          (floatReprChars q ++ ',' ::
            ('"' :: (escapeList "atmosphere_composition".data ++ '"' :: ':' ::
              (('[' :: (dumpsElemsChars (atmo.map .str) ++ [']'])) ++
                '\x7d' :: rest)))))) =
      '"' :: (escapeList name.data ++ '"' ::
        (',' :: ('"' :: (escapeList "radius".data ++ '"' :: ':' ::
          (floatReprChars q ++ ',' ::
            ('"' :: (escapeList "atmosphere_composition".data ++ '"' :: ':' ::
              (('[' :: (dumpsElemsChars (atmo.map .str) ++ [']'])) ++
                '\x7d' :: rest)))))))) from by simp [dumpsChars]]
    rw [readVal_string (A + 2) name.data _]
  have h1 := readMembers_more (A + 3) "name" (dumpsChars (.str name)) _ rest
    (.str name) _ hv1 h2
  rw [show dumpsMembersChars [("name", .str name), ("radius", .num q),
      ("atmosphere_composition", .arr (atmo.map .str))] ++ '\x7d' :: rest =
    '"' :: (escapeList "name".data ++ '"' :: ':' ::
      (dumpsChars (.str name) ++ ',' ::
        ('"' :: (escapeList "radius".data ++ '"' :: ':' ::
          (floatReprChars q ++ ',' ::
            ('"' :: (escapeList "atmosphere_composition".data ++ '"' :: ':' ::
              (('[' :: (dumpsElemsChars (atmo.map .str) ++ [']'])) ++
                '\x7d' :: rest))))))))
    from by simp [dumpsMembersChars, dumpsChars]]
  exact h1

theorem readVal_obj_step (f : ℕ) (T : List Char) :
    readVal (f + 1) ('\x7b' :: ('"' :: T)) =
      (readMembers f ('"' :: T)).map (fun p => (JsonVal.obj p.1, p.2)) := by
  simp only [readVal]
  rw [skipWs_cons _ _ (by decide)]
  show (match skipWs ('"' :: T) with
      | '\x7d' :: rest' => some (JsonVal.obj [], rest')
      | rest' => (readMembers f rest').map (fun p => (JsonVal.obj p.1, p.2))) =
    (readMembers f ('"' :: T)).map (fun p => (JsonVal.obj p.1, p.2))
  rw [skipWs_cons _ _ (by decide)]
  rfl

theorem readVal_payload_doc (A : ℕ) (name : String) (q : ℚ)
    (atmo : List String) (hA : atmo.length + 1 ≤ A) (hq : 0 < q)
    (hdvd : q.den ∣ 10 ^ 1074) :
    readVal (A + 4 + 1)
      (dumpsChars (.obj [("name", .str name), ("radius", .num q),
        ("atmosphere_composition", .arr (atmo.map .str))])) =
      some (.obj [("name", .str name), ("radius", .num q),
        ("atmosphere_composition", .arr (atmo.map .str))], []) := by
  obtain ⟨T, hT⟩ : ∃ T, dumpsMembersChars [("name", .str name),
      ("radius", .num q),
      ("atmosphere_composition", .arr (atmo.map .str))] = '"' :: T :=
    ⟨escapeList "name".data ++ '"' :: ':' :: dumpsChars (.str name) ++ ',' ::
      dumpsMembersChars [("radius", .num q),
        ("atmosphere_composition", .arr (atmo.map .str))],
      by simp [dumpsMembersChars]⟩
  rw [show dumpsChars (.obj [("name", .str name), ("radius", .num q),
      ("atmosphere_composition", .arr (atmo.map .str))]) =
    '\x7b' :: ('"' :: (T ++ ['\x7d'])) from by
      simp [dumpsChars, hT]]
  rw [readVal_obj_step (A + 4) (T ++ ['\x7d'])]
  rw [show ('"' :: (T ++ ['\x7d']) : List Char) =
    dumpsMembersChars [("name", .str name), ("radius", .num q),
      ("atmosphere_composition", .arr (atmo.map .str))] ++
      '\x7d' :: ([] : List Char) from by rw [hT]; simp]
  rw [readMembers_payload A name q atmo [] hA hq hdvd]
  rfl

theorem dumpsElemsChars_str_length (strs : List String) :
    strs.length ≤ (dumpsElemsChars (strs.map .str)).length := by
  induction strs with
  | nil => simp [dumpsElemsChars]
  | cons s ss ih =>
      cases ss with
      | nil => simp [dumpsElemsChars, dumpsChars]
      | cons y t =>
          simp only [List.map_cons, dumpsElemsChars, dumpsChars,
            List.length_append, List.length_cons] at *
          omega

theorem to_json_length (r : AstronomicalBody) :
    r.atmosphere_composition.length + 2 ≤ (AstronomicalBody.to_json r).length := by
  have hE := dumpsElemsChars_str_length r.atmosphere_composition
  show _ ≤ (dumpsChars (to_json_val r)).length
  simp only [to_json_val, dumpsChars, dumpsMembersChars, List.length_append,
    List.length_cons]
  omega

theorem loads_to_json (r : AstronomicalBody) (hq : 0 < r.radius)
    (hdvd : r.radius.den ∣ 10 ^ 1074) :
    loads (AstronomicalBody.to_json r) = some (to_json_val r) := by
  have hlen := to_json_length r
  unfold loads
  obtain ⟨A, hAeq, hA⟩ : ∃ A,
      2 * (AstronomicalBody.to_json r).length + 4 = A + 4 + 1 ∧
      r.atmosphere_composition.length + 1 ≤ A :=
    ⟨2 * (AstronomicalBody.to_json r).length - 1, by omega, by omega⟩
  rw [hAeq]
  rw [show (AstronomicalBody.to_json r).data = dumpsChars (to_json_val r)
    from rfl]
  rw [show to_json_val r = .obj [("name", .str r.name),
    ("radius", .num r.radius),
    ("atmosphere_composition", .arr (r.atmosphere_composition.map .str))]
    from rfl]
  rw [readVal_payload_doc A r.name r.radius r.atmosphere_composition hA hq
    hdvd]
  simp [skipWs]

/-! ### Claim theorems -/

/-- Claim C1: for every validly constructed planet record — name in the
accepted set, radius strictly positive, any list of atmosphere strings —
deserializing the string produced by serializing the record yields a
field-wise equal record: `from_json (to_json r) = ok r`, through the actual
JSON text. The radius hypothesis `r.radius.den ∣ 10 ^ 1074` delimits the
rationals that stand for IEEE-754 doubles, the values the program's radius
field can actually hold: every double is a dyadic rational `m / 2^j` with
`j ≤ 1074`, and `2^j` divides `10^1074`; a rational outside this set
represents no float and so no state of the program. -/
theorem deserialize_of_serialize_roundtrip (r : AstronomicalBody)
    (hname : r.name ∈ planetValues) (hradius : 0 < r.radius)
    (hfloat : r.radius.den ∣ 10 ^ 1074) :
    from_json (AstronomicalBody.to_json r) = .ok r := by
  simp only [from_json, loads_to_json r hradius hfloat]
  rw [to_json_val_eq_payload, from_json_val_payload,
    construct_ok_of_valid _ _ _ hname hradius]

/-- Witness for C1 at the Earth record. -/
theorem deserialize_of_serialize_roundtrip_witness :
    ((⟨"Earth", 6371, ["N2", "O2"]⟩ : AstronomicalBody).name ∈ planetValues ∧
      (0 : ℚ) < (⟨"Earth", 6371, ["N2", "O2"]⟩ : AstronomicalBody).radius ∧
      (⟨"Earth", 6371, ["N2", "O2"]⟩ : AstronomicalBody).radius.den ∣
        10 ^ 1074) ∧
    from_json (AstronomicalBody.to_json ⟨"Earth", 6371, ["N2", "O2"]⟩) =
      .ok ⟨"Earth", 6371, ["N2", "O2"]⟩ :=
  ⟨⟨by decide, by decide, (show ((6371 : ℚ)).den = 1 from rfl) ▸ one_dvd _⟩,
    deserialize_of_serialize_roundtrip ⟨"Earth", 6371, ["N2", "O2"]⟩
      (by decide) (by decide)
      ((show ((6371 : ℚ)).den = 1 from rfl) ▸ one_dvd _)⟩

/-- Claim C2: for every name in the closed four-name set, every strictly
positive radius and every list of atmosphere strings, construction succeeds
and the returned record's fields equal the supplied inputs exactly. -/
theorem construct_valid_inputs_ok (name : String) (radius : ℚ)
    (atmosphere : List String) (hn : name ∈ planetValues) (hr : 0 < radius) :
    AstronomicalBody.construct name radius atmosphere =
      .ok ⟨name, radius, atmosphere⟩ :=
  construct_ok_of_valid name radius atmosphere hn hr

/-- Witness for C2 at Earth. -/
theorem construct_valid_inputs_ok_witness :
    ("Earth" ∈ planetValues ∧ (0 : ℚ) < 6371) ∧
    AstronomicalBody.construct "Earth" 6371 ["N2", "O2"] =
      .ok ⟨"Earth", 6371, ["N2", "O2"]⟩ :=
  ⟨⟨by decide, by decide⟩,
    construct_valid_inputs_ok "Earth" 6371 ["N2", "O2"] (by decide) (by decide)⟩

/-- Claim C3: for every name outside the four-element set and any radius and
atmosphere values, construction fails with the `InvalidNameError` kind
carrying exactly the rejected input name. -/
theorem construct_invalid_name_fails (name : String) (radius : ℚ)
    (atmosphere : List String) (hn : name ∉ planetValues) :
    AstronomicalBody.construct name radius atmosphere =
      .error (.invalidName name) :=
  construct_invalid_name_eq name radius atmosphere hn

/-- Witness for C3 at the spec's Pluto example. -/
theorem construct_invalid_name_fails_witness :
    "Pluto" ∉ planetValues ∧
    AstronomicalBody.construct "Pluto" 1188 ["N2"] =
      .error (.invalidName "Pluto") :=
  ⟨by decide, construct_invalid_name_fails "Pluto" 1188 ["N2"] (by decide)⟩

/-- Claim C4, counterexample: with `radius = -100 ≤ 0` but the out-of-set
name `"Pluto"`, construction does not fail with the `ValidationError` kind:
the `name` field is validated first and its validator's
`InvalidPlanetNameException` propagates before the radius is examined. -/
theorem construct_nonpositive_radius_counterexample :
    AstronomicalBody.construct "Pluto" (-100) [] =
      .error (.invalidName "Pluto") ∧
    ¬ ∃ errs, AstronomicalBody.construct "Pluto" (-100) [] =
      .error (.validationError errs) := by
  refine ⟨by rfl, ?_⟩
  rintro ⟨errs, h⟩
  rw [show AstronomicalBody.construct "Pluto" (-100) [] =
    .error (.invalidName "Pluto") from rfl] at h
  simp at h

/-- Claim C4 as amended: for every radius less than or equal to zero and any
atmosphere values, construction with a name from the accepted set fails with
a `ValidationError`-kind outcome aggregating the field violations; an
out-of-set name instead preempts with `InvalidNameError`, because the name
field is validated first. -/
theorem construct_nonpositive_radius_valid_name_fails (name : String)
    (radius : ℚ) (atmosphere : List String) (hn : name ∈ planetValues)
    (hr : radius ≤ 0) :
    AstronomicalBody.construct name radius atmosphere =
      .error (.validationError ["radius: Input should be greater than 0"]) :=
  construct_nonpositive_eq name radius atmosphere hn hr

/-- Witness for the amended C4 at the spec's Mars example. -/
theorem construct_nonpositive_radius_valid_name_fails_witness :
    ("Mars" ∈ planetValues ∧ (-100 : ℚ) ≤ 0) ∧
    AstronomicalBody.construct "Mars" (-100) [] =
      .error (.validationError ["radius: Input should be greater than 0"]) :=
  ⟨⟨by decide, by decide⟩,
    construct_nonpositive_radius_valid_name_fails "Mars" (-100) []
      (by decide) (by decide)⟩

/-- Claim C5: deserializing a payload carrying the three fields fails exactly
as direct construction from those same field values does — the same error
kind with the same data (`InvalidNameError` when the name validator rejects
the name, `ValidationError` when the `gt=0` radius constraint is violated) —
and, the outcome being a single `Except` value, either a fully validated
record or an error is returned, never a partial record. -/
theorem deserialize_fails_as_construction (name : String) (radius : ℚ)
    (atmosphere : List String) :
    from_json_val (.obj (payload name radius atmosphere)) =
      AstronomicalBody.construct name radius atmosphere :=
  from_json_val_payload name radius atmosphere

/-- Claim C6: every record the program can obtain — by validated construction
or by deserialization — satisfies both field constraints. The source defines
no operation that modifies an existing record (its only methods, `to_json`
and `from_json`, read a record and build a fresh one), so construction is the
only point where field values are set, and the constraints hold for the
record's whole lifetime. -/
theorem constructed_record_satisfies_invariant (name : String) (radius : ℚ)
    (atmosphere : List String) (j : JsonVal) (r : AstronomicalBody)
    (h : AstronomicalBody.construct name radius atmosphere = .ok r ∨
      from_json_val j = .ok r) :
    r.name ∈ planetValues ∧ 0 < r.radius := by
  rcases h with h | h
  · exact construct_ok_inv name radius atmosphere r h
  · exact from_json_val_ok_inv j r h

/-- Witness for C6 at the Earth construction. -/
theorem constructed_record_satisfies_invariant_witness :
    (AstronomicalBody.construct "Earth" 6371 ["N2", "O2"] =
        .ok ⟨"Earth", 6371, ["N2", "O2"]⟩ ∨
      from_json_val .null = .ok ⟨"Earth", 6371, ["N2", "O2"]⟩) ∧
    ((⟨"Earth", 6371, ["N2", "O2"]⟩ : AstronomicalBody).name ∈ planetValues ∧
      0 < (⟨"Earth", 6371, ["N2", "O2"]⟩ : AstronomicalBody).radius) :=
  ⟨Or.inl (by rfl),
    constructed_record_satisfies_invariant "Earth" 6371 ["N2", "O2"] .null
      ⟨"Earth", 6371, ["N2", "O2"]⟩ (Or.inl (by rfl))⟩

set_option maxRecDepth 40000 in
/-- Claim C7: constructing Earth with radius 6371.0 and atmosphere
`["N2","O2"]` succeeds; serializing the record produces exactly the compact
JSON text with the three field values keyed by the field names and no other
content; and deserializing that exact string yields an identical record. -/
theorem earth_example_serialization :
    AstronomicalBody.construct "Earth" 6371 ["N2", "O2"] =
      .ok ⟨"Earth", 6371, ["N2", "O2"]⟩ ∧
    AstronomicalBody.to_json ⟨"Earth", 6371, ["N2", "O2"]⟩ =
      "\x7b\"name\":\"Earth\",\"radius\":6371.0,\"atmosphere_composition\":[\"N2\",\"O2\"]\x7d" ∧
    from_json
      "\x7b\"name\":\"Earth\",\"radius\":6371.0,\"atmosphere_composition\":[\"N2\",\"O2\"]\x7d" =
      .ok ⟨"Earth", 6371, ["N2", "O2"]⟩ := by
  refine ⟨by rfl, by rfl, ?_⟩
  have hload :
      loads "\x7b\"name\":\"Earth\",\"radius\":6371.0,\"atmosphere_composition\":[\"N2\",\"O2\"]\x7d" =
      some (.obj [("name", .str "Earth"),
        ("radius", .num ((6371 : ℚ) + (0 : ℚ) / 10 ^ 1)),
        ("atmosphere_composition", .arr [.str "N2", .str "O2"])]) := by rfl
  have hq : ((6371 : ℚ) + (0 : ℚ) / 10 ^ 1) = 6371 := by norm_num
  rw [hq] at hload
  simp only [from_json, hload]
  rfl

/-- Claim C8: rendering a star produces exactly
`"<name> (Temperature: <temperature>K)"` for every name and temperature, and
in particular `Star(name="Sun", temperature=5778)` renders to
`"Sun (Temperature: 5778K)"`. -/
theorem star_rendering_format :
    (∀ (name : String) (temperature : ℤ),
      Star.str ⟨name, temperature⟩ =
        name ++ " (Temperature: " ++ toString temperature ++ "K)") ∧
    Star.str ⟨"Sun", 5778⟩ = "Sun (Temperature: 5778K)" :=
  ⟨fun _ _ => rfl, by rfl⟩

/-- Claim C9 (code bug): the spec says a failed construction is recovered by
printing a message and is not fatal beyond skipping the rest of that run's
demonstration, but after the `except` arm prints the message and the star is
printed, the GUI block dereferences the local variable `body`, which a failed
construction never bound, and the process dies with an uncaught `NameError`.
Evaluating `main` at the spec's own failing example
(`--name Pluto --radius 1188.0 --atmosphere N2`) exhibits the crash. -/
theorem main_crashes_on_failed_construction :
    main "Pluto" 1188 ["N2"] =
      .nameErrorCrash [.printedInvalidName "Pluto",
        .printedStar "Sun (Temperature: 5778K)"] "body" := by rfl

/-- Claim C10: a payload carrying the three required keys with valid values
plus additional unknown keys is accepted: the extra keys are silently ignored
(the model's default extra-field policy) and the returned record equals the
one constructed from the three required fields alone. -/
theorem deserialize_ignores_extra_keys (name : String) (radius : ℚ)
    (atmosphere : List String) (extras : List (String × JsonVal))
    (hextras : ∀ kv ∈ extras,
      kv.1 ∉ (["name", "radius", "atmosphere_composition"] : List String))
    (hn : name ∈ planetValues) (hr : 0 < radius) :
    from_json_val (.obj (payload name radius atmosphere ++ extras)) =
      .ok ⟨name, radius, atmosphere⟩ := by
  rw [from_json_val_append _ _ hextras, from_json_val_payload,
    construct_ok_of_valid _ _ _ hn hr]

/-- Witness for C10: the Earth payload extended with two unknown keys. -/
theorem deserialize_ignores_extra_keys_witness :
    ((∀ kv ∈ ([("mass", JsonVal.num 1), ("habitable", JsonVal.boolean true)] :
        List (String × JsonVal)),
      kv.1 ∉ (["name", "radius", "atmosphere_composition"] : List String)) ∧
      "Earth" ∈ planetValues ∧ (0 : ℚ) < 6371) ∧
    from_json_val (.obj (payload "Earth" 6371 ["N2", "O2"] ++
      [("mass", JsonVal.num 1), ("habitable", JsonVal.boolean true)])) =
      .ok ⟨"Earth", 6371, ["N2", "O2"]⟩ :=
  ⟨⟨by decide, by decide, by decide⟩,
    deserialize_ignores_extra_keys "Earth" 6371 ["N2", "O2"]
      [("mass", JsonVal.num 1), ("habitable", JsonVal.boolean true)]
      (by decide) (by decide) (by decide)⟩

end Models
